import Mathlib

/-!
# Idea Board: the upvote transactions and the submission handler

A shallow embedding of `functions/index.js` (the callable functions
`upvoteIdea`, `hasUserVoted`, `getVoteCount`) and of the handlers
`handleSubmit` and `handleUpvote` of `pages/app.jsx`.

The Firestore database is external to the repository.  It is modelled as
two association lists: the `ideas` collection, keyed by document id, and
the `votes` sub-collections, keyed by the pair (path of the parent
document below `ideas`, user id); for the votes of an idea that path is the
idea id.  A lookup returns the first entry with the key, so a list is read
as the map it denotes.  The argument of `doc(...)` is a path: the SDK
splits it at `/`, so a request id may name a document deeper in the tree.
The database is taken to hold the `ideas` collection and `votes`
sub-collections only.  The uid of an authenticated caller is a document
id.

JavaScript numbers are modelled as mathematical integers (the counters
stay far below 2^53), timestamps as natural numbers handed in by the
environment.
-/

namespace IdeaBoard

/-! ## Values thrown by the code -/

/-- The three kinds of value the code throws or the SDK rejects with. -/
inductive Thrown where
  /-- An instance `new functions.https.HttpsError(code, message)`. -/
  | httpsError (code message : String)
  /-- An error raised by the Firestore SDK itself; it carries a `code`. -/
  | firestoreError (code message : String)
  /-- An instance `new Error(message)`: it has no `code` property. -/
  | error (message : String)
deriving DecidableEq, Repr

namespace Thrown

/-- The JavaScript expression `error.code` (`none` is `undefined`). -/
def code : Thrown → Option String
  | httpsError c _ => some c
  | firestoreError c _ => some c
  | error _ => none

/-- The JavaScript expression `error.message`. -/
def message : Thrown → String
  | httpsError _ m => m
  | firestoreError _ m => m
  | error m => m

/-- The JavaScript test `error instanceof functions.https.HttpsError`. -/
def isHttpsError : Thrown → Bool
  | httpsError _ _ => true
  | _ => false

end Thrown

/-! ## The Firestore model -/

/-- The data of a document of the `ideas` collection.  `upvotes` is `none`
when the field is missing. -/
structure IdeaData where
  text : String
  upvotes : Option Int
  createdAt : Nat
  authorUid : String
deriving DecidableEq, Repr

/-- The data of a document of a `votes` sub-collection.  `upvoteIdea` writes
`votedAt` and `userId`; an `upvotes` field is absent unless a later write
adds it. -/
structure VoteData where
  votedAt : Nat
  userId : String
  upvotes : Option Int := none
deriving DecidableEq, Repr

/-- The database: `ideas/{ideaId}` and `ideas/{parent}/votes/{userId}`, where
`parent` is the path of the parent document below `ideas`: an idea id, or
the path of a vote document when votes hang below one. -/
structure Firestore where
  ideas : List (String × IdeaData)
  votes : List ((String × String) × VoteData)
deriving DecidableEq, Repr

/-- A document id is a non-empty string without `/`: no document of a
collection has another kind of id. -/
def isDocId (s : String) : Bool :=
  decide (s ≠ "") && decide ('/' ∉ s.data)

/-- First entry of an association list with the given key. -/
def assocGet {κ β : Type} [DecidableEq κ] : List (κ × β) → κ → Option β
  | [], _ => none
  | (k, v) :: rest, key => if k = key then some v else assocGet rest key

namespace Firestore

/-- The snapshot of the document of the collection `ideas` with id
`ideaId`: `none` when `exists` is false, as it is for a string that is not
a document id. -/
def getIdea (db : Firestore) (ideaId : String) : Option IdeaData :=
  if isDocId ideaId then assocGet db.ideas ideaId else none

/-- The snapshot of `ideas/{ideaId}/votes/{userId}`, where `ideaId` is the
path of the parent document below `ideas`. -/
def getVote (db : Firestore) (ideaId userId : String) : Option VoteData :=
  assocGet db.votes (ideaId, userId)

/-- The write `update(ideaRef, { upvotes: n })`: only the `upvotes` field of
the document `ideas/{ideaId}` changes. -/
def updateUpvotes (db : Firestore) (ideaId : String) (n : Int) : Firestore :=
  { db with
    ideas := db.ideas.map (fun e =>
      if e.1 = ideaId then (e.1, { e.2 with upvotes := some n }) else e) }

/-- The write `update(ref, { upvotes: n })` on the vote document
`ideas/{parent}/votes/{userId}`: only its `upvotes` field changes. -/
def updateVoteUpvotes (db : Firestore) (parent userId : String) (n : Int) : Firestore :=
  { db with
    votes := db.votes.map (fun e =>
      if e.1 = (parent, userId) then (e.1, { e.2 with upvotes := some n }) else e) }

/-- The write `set(voteRef, data)`: the document is created, or replaced
when it exists. -/
def setVote (db : Firestore) (ideaId userId : String) (v : VoteData) : Firestore :=
  { db with
    votes := ((ideaId, userId), v) ::
      db.votes.filter (fun e => decide (e.1 ≠ (ideaId, userId))) }

/-- The write `addDoc(collection(db, 'ideas'), data)` with the document id
the SDK generated. -/
def addIdea (db : Firestore) (newId : String) (d : IdeaData) : Firestore :=
  { db with ideas := (newId, d) :: db.ideas }

/-- The ids of the documents of `ideas/{ideaId}/votes`. -/
def voteIds (db : Firestore) (ideaId : String) : List String :=
  ((db.votes.filter (fun e => decide (e.1.1 = ideaId))).map (fun e => e.1.2)).dedup

/-- The `size` of the query snapshot of `ideas/{ideaId}/votes`: the number of
documents in the sub-collection. -/
def votesSize (db : Firestore) (ideaId : String) : Nat :=
  (db.voteIds ideaId).length

end Firestore

/-! ### Document references -/

/-- The pieces of a path between its `/` characters. -/
def splitSlash : List Char → List (List Char)
  | [] => [[]]
  | c :: cs =>
    if c = '/' then [] :: splitSlash cs
    else
      match splitSlash cs with
      | [] => [[c]]
      | seg :: rest => (c :: seg) :: rest

/-- Whether a path contains `//`, which the SDK rejects. -/
def hasDoubleSlash : List Char → Bool
  | [] => false
  | c :: cs =>
    match cs with
    | [] => false
    | c2 :: _ => (decide (c = '/') && decide (c2 = '/')) || hasDoubleSlash cs

/-- The segments of a relative path: the SDK splits at `/` and drops the
empty piece a leading or trailing `/` leaves. -/
def pathSegments (p : String) : List String :=
  ((splitSlash p.data).filter (fun seg => decide (seg ≠ []))).map String.mk

/-- The segments of a path joined by `/`. -/
def joinSlash : List String → String
  | [] => ""
  | [s] => s
  | s :: rest => s ++ "/" ++ joinSlash rest

/-- A reference to a document below the collection `ideas`. -/
inductive DocRef where
  /-- The document `ideas/{id}`. -/
  | idea (id : String)
  /-- The document `ideas/{parent}/votes/{uid}`. -/
  | vote (parent uid : String)
  /-- A document of a sub-collection that is not named `votes`; the database
  holds none. -/
  | other (path : String)
deriving DecidableEq, Repr

/-- The path of a referenced document below `ideas`. -/
def DocRef.path : DocRef → String
  | .idea id => id
  | .vote parent uid => parent ++ "/votes/" ++ uid
  | .other path => path

/-- The reference `db.collection('ideas').doc(documentPath)`, or `none` when
`doc` throws: on an empty path, on a path with `//`, and on a path that
does not point to a document because its number of segments is even. -/
def docRef (documentPath : String) : Option DocRef :=
  if documentPath = "" ∨ hasDoubleSlash documentPath.data = true then none
  else
    let segments := pathSegments documentPath
    if segments.length % 2 = 0 then none
    else
      match segments.reverse with
      | [] => none
      | [id] => some (.idea id)
      | uid :: coll :: parent =>
        if coll = "votes" then some (.vote (joinSlash parent.reverse) uid)
        else some (.other (joinSlash segments))

/-- The plain `Error` that `doc` throws on a path it rejects; it has no
`code`.  The wording follows the SDK. -/
def docPathError (documentPath : String) : Thrown :=
  if hasDoubleSlash documentPath.data then
    .error "Value for argument \"documentPath\" is not a valid resource path. Paths must not contain //."
  else
    .error ("Value for argument \"documentPath\" must point to a document, but was \""
      ++ documentPath ++ "\". Your path does not contain an even number of components.")

namespace Firestore

/-- The snapshot of a referenced document, reduced to what `upvoteIdea` reads
of it: `none` when `exists` is false, else the field `data().upvotes`. -/
def getUpvotes (db : Firestore) : DocRef → Option (Option Int)
  | .idea id => (db.getIdea id).map (fun d => d.upvotes)
  | .vote parent uid => (db.getVote parent uid).map (fun v => v.upvotes)
  | .other _ => none

/-- The write `update(ref, { upvotes: n })` on a referenced document. -/
def updateRef (db : Firestore) : DocRef → Int → Firestore
  | .idea id, n => db.updateUpvotes id n
  | .vote parent uid, n => db.updateVoteUpvotes parent uid n
  | .other _, _ => db

end Firestore

/-- The JavaScript expression `upvotes || 0` on a counter: a missing field
and the number zero both give 0. -/
def orZero : Option Int → Int
  | none => 0
  | some v => if v = 0 then 0 else v

/-- The transaction primitive `runTransaction`.  The body reads the database
and either throws or returns its result with the writes it queued; the
writes are committed only when the body returns.  `fault` is an error of
the SDK itself (unreachable backend, contention that outlasted the
retries): the call then rejects with it and commits nothing. -/
def runTransaction {α : Type} (fault : Option Thrown)
    (body : Firestore → Except Thrown (α × Firestore)) (db : Firestore) :
    Except Thrown α × Firestore :=
  match fault with
  | some e => (.error e, db)
  | none =>
    match body db with
    | .ok (a, db') => (.ok a, db')
    | .error e => (.error e, db)

/-! ## `functions/index.js` -/

/-- The field `context.auth` of a callable context. -/
structure Auth where
  uid : String
deriving DecidableEq, Repr

/-- The second argument of a callable function. -/
structure CallableContext where
  auth : Option Auth
deriving DecidableEq, Repr

/-- The first argument of the callable functions: `{ ideaId }`, where
`none` is a missing `ideaId`. -/
structure CallData where
  ideaId : Option String
deriving DecidableEq, Repr

/-- The JavaScript test `!ideaId`. -/
def CallData.ideaIdFalsy (data : CallData) : Bool :=
  match data.ideaId with
  | none => true
  | some s => decide (s = "")

/-- The response of `upvoteIdea`. -/
structure UpvoteResponse where
  success : Bool
  upvotes : Int
  message : String
deriving DecidableEq, Repr

/-- The body handed to `db.runTransaction` in `upvoteIdea`, for the reference
`ideaRef` built from the request; `voteRef` is the document `userId` of the
collection `votes` below it. -/
def upvoteIdeaBody (ideaRef : DocRef) (userId : String) (now : Nat) (db : Firestore) :
    Except Thrown (Int × Firestore) :=
  match db.getUpvotes ideaRef with
  | none => .error (.httpsError "not-found" "Idea not found.")
  | some upvotes =>
    match db.getVote ideaRef.path userId with
    | some _ =>
      .error (.httpsError "already-exists" "User has already upvoted this idea.")
    | none =>
      let currentUpvotes := orZero upvotes
      let db1 := db.setVote ideaRef.path userId { votedAt := now, userId := userId }
      let db2 := db1.updateRef ideaRef (currentUpvotes + 1)
      .ok (currentUpvotes + 1, db2)

/-- The callable function `upvoteIdea`. `now` is the server timestamp.  The
references are built before the `try`, so an error of `doc` leaves the
function as it is. -/
def upvoteIdea (fault : Option Thrown) (now : Nat) (data : CallData)
    (context : CallableContext) (db : Firestore) :
    Except Thrown UpvoteResponse × Firestore :=
  match context.auth with
  | none =>
    (.error (.httpsError "unauthenticated" "User must be authenticated to upvote."), db)
  | some auth =>
    let userId := auth.uid
    if data.ideaIdFalsy then
      (.error (.httpsError "invalid-argument" "ideaId is required."), db)
    else
      let ideaId := data.ideaId.getD ""
      match docRef ideaId with
      | none => (.error (docPathError ideaId), db)
      | some ideaRef =>
        match runTransaction fault (upvoteIdeaBody ideaRef userId now) db with
        | (.ok newUpvotes, db') =>
          (.ok { success := true, upvotes := newUpvotes,
                 message := "Idea upvoted successfully!" }, db')
        | (.error error, db') =>
          if error.isHttpsError then (.error error, db')
          else
            (.error (.httpsError "internal" "An error occurred while upvoting the idea."),
             db')

/-- The response of `hasUserVoted`. -/
structure VotedResponse where
  hasVoted : Bool
  votedAt : Option Nat
deriving DecidableEq, Repr

/-- The callable function `hasUserVoted`.  `fault` is an error of the SDK
raised by the read.  The reference is built inside the `try`, so an error
of `doc` is caught like any other. -/
def hasUserVoted (fault : Option Thrown) (data : CallData)
    (context : CallableContext) (db : Firestore) :
    Except Thrown VotedResponse × Firestore :=
  match context.auth with
  | none => (.error (.httpsError "unauthenticated" "User must be authenticated."), db)
  | some auth =>
    let userId := auth.uid
    if data.ideaIdFalsy then
      (.error (.httpsError "invalid-argument" "ideaId is required."), db)
    else
      let ideaId := data.ideaId.getD ""
      match docRef ideaId with
      | none =>
        (.error (.httpsError "internal" "An error occurred while checking vote status."), db)
      | some ideaRef =>
        match fault with
        | some _ =>
          (.error (.httpsError "internal" "An error occurred while checking vote status."),
           db)
        | none =>
          match db.getVote ideaRef.path userId with
          | some voteDoc => (.ok { hasVoted := true, votedAt := some voteDoc.votedAt }, db)
          | none => (.ok { hasVoted := false, votedAt := none }, db)

/-- The callable function `getVoteCount`; its result is the field
`voteCount` of the response. -/
def getVoteCount (fault : Option Thrown) (data : CallData) (db : Firestore) :
    Except Thrown Nat × Firestore :=
  if data.ideaIdFalsy then
    (.error (.httpsError "invalid-argument" "ideaId is required."), db)
  else
    let ideaId := data.ideaId.getD ""
    match docRef ideaId with
    | none =>
      (.error (.httpsError "internal" "An error occurred while getting vote count."), db)
    | some ideaRef =>
      match fault with
      | some _ =>
        (.error (.httpsError "internal" "An error occurred while getting vote count."), db)
      | none => (.ok (db.votesSize ideaRef.path), db)

/-! ## `pages/app.jsx` -/

/-- JavaScript strings are modelled by Lean strings, that is, by sequences of
code points without lone surrogates.  `jsLength` is the JavaScript
`length`: the number of UTF-16 code units. -/
def jsLength (s : String) : Nat :=
  (s.data.map (fun c => if 0x10000 ≤ c.toNat then 2 else 1)).sum

/-- The code points `String.prototype.trim` removes: the ECMAScript white
space and line terminator characters. -/
def isJsWhiteSpace (c : Char) : Bool :=
  decide (c.toNat ∈ [0x09, 0x0A, 0x0B, 0x0C, 0x0D, 0x20, 0xA0, 0x1680, 0x2028, 0x2029,
    0x202F, 0x205F, 0x3000, 0xFEFF]) || (decide (0x2000 ≤ c.toNat) && decide (c.toNat ≤ 0x200A))

/-- The JavaScript method `trim`. -/
def jsTrim (s : String) : String :=
  ⟨((s.data.dropWhile isJsWhiteSpace).reverse.dropWhile isJsWhiteSpace).reverse⟩

/-- An entry of the component state `ideas`: `{ id: doc.id, ...doc.data() }`. -/
structure Idea where
  id : String
  text : String
  upvotes : Option Int
  createdAt : Nat
  authorUid : String
deriving DecidableEq, Repr

/-- The signed-in user held in the component state. -/
structure User where
  uid : String
deriving DecidableEq, Repr

/-- The state of the component `App`. -/
structure AppState where
  ideas : List Idea
  newIdea : String
  isSubmitting : Bool
  user : Option User
deriving DecidableEq, Repr

/-- What a handler acts on: the component state, the module-level `db`
(`none` when Firebase is not configured) and the `alert` messages shown so
far, oldest first. -/
structure World where
  app : AppState
  db : Option Firestore
  alerts : List String
deriving DecidableEq, Repr

/-- The `alert` of the `catch` block of `handleSubmit`. -/
def submitAlert (error : Thrown) : String :=
  if error.code = some "permission-denied" then
    "Permission denied. Please check your Firestore rules and ensure the database is created."
  else if error.code = some "not-found" then
    "Firestore database not found. Please create the database in Firebase Console."
  else "Failed to submit idea: " ++ error.message

/-- The handler `handleSubmit`; the submitted text is the state `newIdea`.
`now` is `Date.now()`, respectively the server timestamp; `newId` is the id
`addDoc` generates; `fault` is an error `addDoc` rejects with. -/
def handleSubmit (fault : Option Thrown) (now : Nat) (newId : String) (w : World) : World :=
  let newIdea := w.app.newIdea
  if jsTrim newIdea = "" then w
  else if jsLength newIdea > 280 then
    { w with alerts := w.alerts ++ ["Ideas must be 280 characters or less"] }
  else
    match w.db, w.app.user with
    | some db, some user =>
      match fault with
      | some error =>
        { w with
          app := { w.app with isSubmitting := false }
          alerts := w.alerts ++ [submitAlert error] }
      | none =>
        { w with
          db := some (db.addIdea newId
            { text := jsTrim newIdea, upvotes := some 0, createdAt := now,
              authorUid := user.uid })
          app := { w.app with newIdea := "", isSubmitting := false } }
    | _, _ =>
      let newIdeaObj : Idea :=
        { id := "demo-" ++ toString now, text := jsTrim newIdea, upvotes := some 0,
          createdAt := now, authorUid := "demo-user" }
      { w with
        app := { w.app with
          ideas := newIdeaObj :: w.app.ideas, newIdea := "", isSubmitting := false }
        alerts := w.alerts ++
          ["Demo mode: Idea added locally. Set up Firebase for persistence."] }

/-- The body handed to `runTransaction` in `handleUpvote`. -/
def handleUpvoteBody (ideaId : String) (db : Firestore) :
    Except Thrown (Unit × Firestore) :=
  match db.getIdea ideaId with
  | none => .error (.error "Idea does not exist - it may have been deleted")
  | some ideaDoc =>
    let currentUpvotes := orZero ideaDoc.upvotes
    .ok ((), db.updateUpvotes ideaId (currentUpvotes + 1))

/-- The `alert` of the `catch` block of `handleUpvote`. -/
def upvoteAlert (error : Thrown) : String :=
  if error.code = some "not-found" then
    "This idea no longer exists. Please refresh the page."
  else if error.code = some "permission-denied" then
    "Permission denied. Please check your Firestore rules."
  else "Failed to upvote: " ++ error.message

/-- The handler `handleUpvote`. -/
def handleUpvote (fault : Option Thrown) (ideaId : String) (w : World) : World :=
  match w.db with
  | none =>
    { w with
      app := { w.app with
        ideas := w.app.ideas.map (fun idea =>
          if idea.id = ideaId then { idea with upvotes := some (orZero idea.upvotes + 1) }
          else idea) } }
  | some db =>
    match w.app.user with
    | none => { w with alerts := w.alerts ++ ["Please wait for authentication to complete"] }
    | some _ =>
      match runTransaction fault (handleUpvoteBody ideaId) db with
      | (.ok _, db') => { w with db := some db' }
      | (.error error, db') =>
        { w with db := some db', alerts := w.alerts ++ [upvoteAlert error] }

/-! ## Drivers and sample data -/

/-- A sequence of `upvoteIdea` calls on one idea, one per (user, timestamp)
pair, each on the database the previous one left; the responses come back
in call order. -/
def upvoteAll (ideaId : String) :
    List (String × Nat) → Firestore → List (Except Thrown UpvoteResponse) × Firestore
  | [], db => ([], db)
  | (u, now) :: rest, db =>
    let r := upvoteIdea none now ⟨some ideaId⟩ ⟨some ⟨u⟩⟩ db
    let rs := upvoteAll ideaId rest r.2
    (r.1 :: rs.1, rs.2)

/-- A database with two ideas, the first without an `upvotes` field, and one
vote record. -/
def sampleDb : Firestore :=
  { ideas := [("a", { text := "x", upvotes := none, createdAt := 1, authorUid := "u" }),
              ("b", { text := "y", upvotes := some 3, createdAt := 2, authorUid := "v" })],
    votes := [(("b", "u"), { votedAt := 5, userId := "u" })] }

/-- A database with one idea with no votes. -/
def freshDb : Firestore :=
  { ideas := [("a", { text := "x", upvotes := some 0, createdAt := 1, authorUid := "u" })],
    votes := [] }

/-- The component over `sampleDb` with a signed-in user. -/
def sampleWorld : World :=
  { app := { ideas := [], newIdea := "  hi ", isSubmitting := false, user := some ⟨"u"⟩ },
    db := some sampleDb, alerts := [] }

/-- The component over `sampleDb` before the anonymous sign-in completed. -/
def signedOutWorld : World :=
  { app := { ideas := [], newIdea := "", isSubmitting := false, user := none },
    db := some sampleDb, alerts := [] }

/-- The component when Firebase is not configured: `db` is `null` and the
list holds the two demo ideas the component installs. -/
def demoWorld : World :=
  { app :=
      { ideas :=
          [{ id := "demo-1", text := "Welcome to the Idea Board!", upvotes := some 5,
             createdAt := 2, authorUid := "demo-user" },
           { id := "demo-2", text := "Add your Firebase configuration.", upvotes := some 3,
             createdAt := 1, authorUid := "demo-user" }],
        newIdea := "", isSubmitting := false, user := none },
    db := none, alerts := [] }

/-! ## Lemmas on the Firestore model -/

theorem assocGet_eq_none {κ β : Type} [DecidableEq κ] (l : List (κ × β)) (key : κ) :
    assocGet l key = none ↔ ∀ e ∈ l, e.1 ≠ key := by
  induction l with
  | nil => simp [assocGet]
  | cons e rest ih =>
    obtain ⟨k, v⟩ := e
    by_cases h : k = key
    · simp [assocGet, h]
    · simp [assocGet, h, ih]

theorem assocGet_filter_ne {κ β : Type} [DecidableEq κ] (l : List (κ × β)) (k key : κ)
    (h : key ≠ k) :
    assocGet (l.filter (fun e => decide (e.1 ≠ k))) key = assocGet l key := by
  induction l with
  | nil => rfl
  | cons e rest ih =>
    obtain ⟨k1, v⟩ := e
    by_cases h1 : k1 = k
    · have h2 : ¬ k1 = key := fun h3 => h (h3.symm.trans h1)
      rw [List.filter_cons_of_neg (by simpa using h1)]
      simp only [assocGet, h2, if_false]
      exact ih
    · rw [List.filter_cons_of_pos (by simpa using h1)]
      by_cases h2 : k1 = key
      · simp only [assocGet, h2, if_true]
      · simp only [assocGet, h2, if_false]
        exact ih

theorem assocGet_cons {κ β : Type} [DecidableEq κ] (e : κ × β) (rest : List (κ × β))
    (key : κ) :
    assocGet (e :: rest) key = if e.1 = key then some e.2 else assocGet rest key := by
  obtain ⟨k, v⟩ := e
  rfl

theorem assocGet_map_self {κ β : Type} [DecidableEq κ] (l : List (κ × β)) (k : κ)
    (f : β → β) :
    assocGet (l.map (fun e => if e.1 = k then (e.1, f e.2) else e)) k
      = (assocGet l k).map f := by
  induction l with
  | nil => rfl
  | cons e rest ih =>
    rw [List.map_cons, assocGet_cons, assocGet_cons, ih]
    by_cases h1 : e.1 = k
    · simp [h1]
    · simp [h1]

theorem assocGet_map_other {κ β : Type} [DecidableEq κ] (l : List (κ × β)) (k key : κ)
    (f : β → β) (h : key ≠ k) :
    assocGet (l.map (fun e => if e.1 = k then (e.1, f e.2) else e)) key
      = assocGet l key := by
  induction l with
  | nil => rfl
  | cons e rest ih =>
    rw [List.map_cons, assocGet_cons, assocGet_cons, ih]
    by_cases h1 : e.1 = k
    · have h2 : ¬ e.1 = key := fun h3 => h (h3.symm.trans h1)
      have h3 : ¬ k = key := fun h4 => h h4.symm
      simp [h1, h3]
    · simp [h1]

namespace Firestore

@[simp] theorem updateUpvotes_votes (db : Firestore) (i : String) (n : Int) :
    (db.updateUpvotes i n).votes = db.votes := rfl

@[simp] theorem setVote_ideas (db : Firestore) (i u : String) (v : VoteData) :
    (db.setVote i u v).ideas = db.ideas := rfl

@[simp] theorem getVote_updateUpvotes (db : Firestore) (i : String) (n : Int)
    (j u : String) : (db.updateUpvotes i n).getVote j u = db.getVote j u := rfl

@[simp] theorem votesSize_updateUpvotes (db : Firestore) (i : String) (n : Int)
    (j : String) : (db.updateUpvotes i n).votesSize j = db.votesSize j := rfl

@[simp] theorem getIdea_setVote (db : Firestore) (i u : String) (v : VoteData)
    (j : String) : (db.setVote i u v).getIdea j = db.getIdea j := rfl

theorem getIdea_updateUpvotes_self (db : Firestore) (i : String) (n : Int) :
    (db.updateUpvotes i n).getIdea i
      = (db.getIdea i).map (fun d => { d with upvotes := some n }) := by
  unfold getIdea
  by_cases hid : isDocId i = true
  · rw [if_pos hid, if_pos hid]
    exact assocGet_map_self db.ideas i (fun d => { d with upvotes := some n })
  · rw [if_neg hid, if_neg hid]
    rfl

theorem getIdea_updateUpvotes_other (db : Firestore) (i j : String) (n : Int)
    (h : j ≠ i) : (db.updateUpvotes i n).getIdea j = db.getIdea j := by
  unfold getIdea
  by_cases hid : isDocId j = true
  · rw [if_pos hid, if_pos hid]
    exact assocGet_map_other db.ideas i j (fun d => { d with upvotes := some n }) h
  · rw [if_neg hid, if_neg hid]

theorem isDocId_of_getIdea (db : Firestore) (i : String) (d : IdeaData)
    (h : db.getIdea i = some d) : isDocId i = true := by
  unfold getIdea at h
  by_cases hid : isDocId i = true
  · exact hid
  · rw [if_neg hid] at h
    cases h

@[simp] theorem getIdea_updateVoteUpvotes (db : Firestore) (p u : String) (n : Int)
    (j : String) : (db.updateVoteUpvotes p u n).getIdea j = db.getIdea j := rfl

theorem getVote_updateVoteUpvotes_other (db : Firestore) (p u j w : String) (n : Int)
    (h : (j, w) ≠ (p, u)) : (db.updateVoteUpvotes p u n).getVote j w = db.getVote j w :=
  assocGet_map_other db.votes (p, u) (j, w) (fun v => { v with upvotes := some n }) h

theorem getVote_updateVoteUpvotes_self (db : Firestore) (p u : String) (n : Int) :
    (db.updateVoteUpvotes p u n).getVote p u
      = (db.getVote p u).map (fun v => { v with upvotes := some n }) :=
  assocGet_map_self db.votes (p, u) (fun v => { v with upvotes := some n })

/-- A write to the `upvotes` field of a vote document changes no ledger. -/
theorem votesSize_updateVoteUpvotes (db : Firestore) (p u : String) (n : Int)
    (j : String) : (db.updateVoteUpvotes p u n).votesSize j = db.votesSize j := by
  have hkeys : ∀ l : List ((String × String) × VoteData),
      ((l.map (fun e =>
          if e.1 = (p, u) then (e.1, { e.2 with upvotes := some n }) else e)).filter
            (fun e => decide (e.1.1 = j))).map (fun e => e.1.2)
        = (l.filter (fun e => decide (e.1.1 = j))).map (fun e => e.1.2) := by
    intro l
    induction l with
    | nil => rfl
    | cons e rest ih =>
      rw [List.map_cons]
      by_cases hk : e.1 = (p, u)
      · rw [if_pos hk]
        by_cases hj : e.1.1 = j
        · rw [List.filter_cons_of_pos (by simpa using hj),
            List.filter_cons_of_pos (by simpa using hj), List.map_cons, List.map_cons, ih]
        · rw [List.filter_cons_of_neg (by simpa using hj),
            List.filter_cons_of_neg (by simpa using hj), ih]
      · rw [if_neg hk]
        by_cases hj : e.1.1 = j
        · rw [List.filter_cons_of_pos (by simpa using hj),
            List.filter_cons_of_pos (by simpa using hj), List.map_cons, List.map_cons, ih]
        · rw [List.filter_cons_of_neg (by simpa using hj),
            List.filter_cons_of_neg (by simpa using hj), ih]
  simp only [votesSize, voteIds, updateVoteUpvotes, hkeys]

theorem getVote_setVote_self (db : Firestore) (i u : String) (v : VoteData) :
    (db.setVote i u v).getVote i u = some v := by
  simp [getVote, setVote, assocGet]

theorem getVote_setVote_other (db : Firestore) (i u j w : String) (v : VoteData)
    (h : (j, w) ≠ (i, u)) : (db.setVote i u v).getVote j w = db.getVote j w := by
  have h1 : ¬ (i, u) = (j, w) := fun h2 => h h2.symm
  simp only [getVote, setVote, assocGet, h1, if_false]
  exact assocGet_filter_ne db.votes (i, u) (j, w) h

theorem votesSize_setVote_new (db : Firestore) (i u : String) (v : VoteData)
    (h : db.getVote i u = none) :
    (db.setVote i u v).votesSize i = db.votesSize i + 1 := by
  have hall : ∀ e ∈ db.votes, e.1 ≠ (i, u) := (assocGet_eq_none db.votes (i, u)).1 h
  have hfilter : db.votes.filter (fun e => decide (e.1 ≠ (i, u))) = db.votes := by
    apply List.filter_eq_self.2
    intro e he
    simpa using hall e he
  have hnot : u ∉ (db.votes.filter (fun e => decide (e.1.1 = i))).map (fun e => e.1.2) := by
    intro hmem
    obtain ⟨e, he, heu⟩ := List.mem_map.1 hmem
    have he1 := List.mem_filter.1 he
    have hi : e.1.1 = i := by simpa using he1.2
    exact hall e he1.1 (Prod.ext hi heu)
  simp only [votesSize, voteIds, setVote, hfilter]
  rw [List.filter_cons]
  simp only [decide_True, if_true, List.map_cons]
  rw [List.dedup_cons_of_not_mem hnot]
  rfl

theorem votesSize_setVote_other (db : Firestore) (i u j : String) (v : VoteData)
    (h : j ≠ i) : (db.setVote i u v).votesSize j = db.votesSize j := by
  have h1 : ¬ i = j := fun h2 => h h2.symm
  simp only [votesSize, voteIds, setVote]
  rw [List.filter_cons]
  simp only [h1, decide_False, Bool.false_eq_true, if_false]
  rw [List.filter_filter]
  congr 3
  apply List.filter_congr
  intro e _
  by_cases h2 : e.1.1 = j
  · have h3 : e.1 ≠ (i, u) := by
      intro h4
      rw [h4] at h2
      exact h1 h2
    simp [h2, h3]
  · simp [h2]

end Firestore


/-! ## Lemmas on document references -/

theorem splitSlash_of_not_mem (cs : List Char) (h : '/' ∉ cs) : splitSlash cs = [cs] := by
  induction cs with
  | nil => rfl
  | cons c rest ih =>
    have hc : c ≠ '/' := fun hc => h (hc ▸ List.mem_cons_self _ _)
    have hr : '/' ∉ rest := fun hr => h (List.mem_cons_of_mem _ hr)
    simp [splitSlash, hc, ih hr]

theorem hasDoubleSlash_of_not_mem (cs : List Char) (h : '/' ∉ cs) :
    hasDoubleSlash cs = false := by
  induction cs with
  | nil => rfl
  | cons c rest ih =>
    have hc : c ≠ '/' := fun hc => h (hc ▸ List.mem_cons_self _ _)
    have hr : '/' ∉ rest := fun hr => h (List.mem_cons_of_mem _ hr)
    cases rest with
    | nil => rfl
    | cons c2 rest2 =>
      simp [hasDoubleSlash, hc]
      exact ih hr

/-- A document id refers to the idea of that id. -/
theorem docRef_of_isDocId (i : String) (h : isDocId i = true) :
    docRef i = some (.idea i) := by
  simp only [isDocId, Bool.and_eq_true, decide_eq_true_eq] at h
  obtain ⟨h1, h2⟩ := h
  have hne : i.data ≠ [] := by
    intro hd
    apply h1
    cases i
    simp_all
  simp [docRef, h1, hasDoubleSlash_of_not_mem _ h2, pathSegments,
    splitSlash_of_not_mem _ h2, hne]

/-- A path the SDK accepts is not empty. -/
theorem ne_empty_of_docRef (i : String) (ref : DocRef) (h : docRef i = some ref) :
    i ≠ "" := by
  intro hi
  subst hi
  simp [docRef] at h

/-- The path of a vote document is not a document id. -/
theorem vote_path_ne_docId (p u j : String) (hj : isDocId j = true) :
    j ≠ (DocRef.vote p u).path := by
  intro h
  simp only [isDocId, Bool.and_eq_true, decide_eq_true_eq] at hj
  apply hj.2
  rw [h]
  simp [DocRef.path, String.data_append]

/-! ## Lemmas on `upvoteIdea` -/

theorem orZero_some (n : Int) : orZero (some n) = n := by
  by_cases h : n = 0
  · simp [orZero, h]
  · simp [orZero, h]

theorem ideaIdFalsy_some (i : String) (hi : i ≠ "") :
    CallData.ideaIdFalsy ⟨some i⟩ = false := by
  simp [CallData.ideaIdFalsy, hi]

/-- The successful path of `upvoteIdea` on a reference. -/
theorem upvoteIdea_ref_ok (now : Nat) (i u : String) (db : Firestore) (ref : DocRef)
    (upv : Option Int) (hr : docRef i = some ref) (hd : db.getUpvotes ref = some upv)
    (hv : db.getVote ref.path u = none) :
    upvoteIdea none now ⟨some i⟩ ⟨some ⟨u⟩⟩ db
      = (.ok { success := true, upvotes := orZero upv + 1,
               message := "Idea upvoted successfully!" },
         (db.setVote ref.path u { votedAt := now, userId := u }).updateRef ref
           (orZero upv + 1)) := by
  simp [upvoteIdea, ideaIdFalsy_some i (ne_empty_of_docRef i ref hr), hr, runTransaction,
    upvoteIdeaBody, hd, hv]

/-- The duplicate-vote path of `upvoteIdea` on a reference. -/
theorem upvoteIdea_ref_alreadyExists (now : Nat) (i u : String) (db : Firestore)
    (ref : DocRef) (upv : Option Int) (v : VoteData) (hr : docRef i = some ref)
    (hd : db.getUpvotes ref = some upv) (hv : db.getVote ref.path u = some v) :
    upvoteIdea none now ⟨some i⟩ ⟨some ⟨u⟩⟩ db
      = (.error (.httpsError "already-exists" "User has already upvoted this idea."),
         db) := by
  simp [upvoteIdea, ideaIdFalsy_some i (ne_empty_of_docRef i ref hr), hr, runTransaction,
    upvoteIdeaBody, hd, hv, Thrown.isHttpsError]

/-- The missing-document path of `upvoteIdea` on a reference. -/
theorem upvoteIdea_ref_missing (now : Nat) (i u : String) (db : Firestore) (ref : DocRef)
    (hr : docRef i = some ref) (hd : db.getUpvotes ref = none) :
    upvoteIdea none now ⟨some i⟩ ⟨some ⟨u⟩⟩ db
      = (.error (.httpsError "not-found" "Idea not found."), db) := by
  simp [upvoteIdea, ideaIdFalsy_some i (ne_empty_of_docRef i ref hr), hr, runTransaction,
    upvoteIdeaBody, hd, Thrown.isHttpsError]

/-- The path `doc` rejects: the plain error leaves `upvoteIdea` as it is. -/
theorem upvoteIdea_badPath (fault : Option Thrown) (now : Nat) (i u : String)
    (db : Firestore) (hi : i ≠ "") (hr : docRef i = none) :
    upvoteIdea fault now ⟨some i⟩ ⟨some ⟨u⟩⟩ db = (.error (docPathError i), db) := by
  simp [upvoteIdea, ideaIdFalsy_some i hi, hr]

/-- The successful path of `upvoteIdea`. -/
theorem upvoteIdea_ok (now : Nat) (i u : String) (db : Firestore) (d : IdeaData)
    (_hi : i ≠ "") (hd : db.getIdea i = some d) (hv : db.getVote i u = none) :
    upvoteIdea none now ⟨some i⟩ ⟨some ⟨u⟩⟩ db
      = (.ok { success := true, upvotes := orZero d.upvotes + 1,
               message := "Idea upvoted successfully!" },
         (db.setVote i u { votedAt := now, userId := u }).updateUpvotes i
           (orZero d.upvotes + 1)) :=
  upvoteIdea_ref_ok now i u db (.idea i) d.upvotes
    (docRef_of_isDocId i (Firestore.isDocId_of_getIdea db i d hd))
    (by simp [Firestore.getUpvotes, hd]) hv

/-- The duplicate-vote path of `upvoteIdea`. -/
theorem upvoteIdea_alreadyExists (now : Nat) (i u : String) (db : Firestore)
    (d : IdeaData) (v : VoteData)
    (_hi : i ≠ "") (hd : db.getIdea i = some d) (hv : db.getVote i u = some v) :
    upvoteIdea none now ⟨some i⟩ ⟨some ⟨u⟩⟩ db
      = (.error (.httpsError "already-exists" "User has already upvoted this idea."),
         db) :=
  upvoteIdea_ref_alreadyExists now i u db (.idea i) d.upvotes v
    (docRef_of_isDocId i (Firestore.isDocId_of_getIdea db i d hd))
    (by simp [Firestore.getUpvotes, hd]) hv

/-- The missing-idea path of `upvoteIdea`, for a document id. -/
theorem upvoteIdea_missing (now : Nat) (i u : String) (db : Firestore)
    (hi : isDocId i = true) (hd : db.getIdea i = none) :
    upvoteIdea none now ⟨some i⟩ ⟨some ⟨u⟩⟩ db
      = (.error (.httpsError "not-found" "Idea not found."), db) :=
  upvoteIdea_ref_missing now i u db (.idea i) (docRef_of_isDocId i hi)
    (by simp [Firestore.getUpvotes, hd])

/-- The database after the two writes of a successful upvote, read back. -/
theorem getIdea_after_upvote (db : Firestore) (i u : String) (v : VoteData) (n : Int)
    (d : IdeaData) (hd : db.getIdea i = some d) :
    ((db.setVote i u v).updateUpvotes i n).getIdea i
      = some { d with upvotes := some n } := by
  rw [Firestore.getIdea_updateUpvotes_self, Firestore.getIdea_setVote, hd]
  rfl

/-- Every call of `upvoteIdea` either returns the database as it was or
takes the successful path on some reference. -/
theorem upvoteIdea_db_cases (fault : Option Thrown) (now : Nat) (data : CallData)
    (context : CallableContext) (db : Firestore) :
    (upvoteIdea fault now data context db).2 = db
    ∨ ∃ ref u upv, db.getUpvotes ref = some upv ∧ db.getVote ref.path u = none
        ∧ (upvoteIdea fault now data context db).2
            = (db.setVote ref.path u { votedAt := now, userId := u }).updateRef ref
                (orZero upv + 1) := by
  obtain ⟨auth⟩ := context
  cases auth with
  | none => exact Or.inl rfl
  | some a =>
    by_cases hf : data.ideaIdFalsy = true
    · left
      simp [upvoteIdea, hf]
    · cases hr : docRef (data.ideaId.getD "") with
      | none =>
        left
        simp [upvoteIdea, hf, hr]
      | some ref =>
        cases fault with
        | some e =>
          left
          by_cases he : e.isHttpsError = true
          · simp [upvoteIdea, hf, hr, runTransaction, he]
          · simp [upvoteIdea, hf, hr, runTransaction, he]
        | none =>
          cases hd : db.getUpvotes ref with
          | none =>
            left
            simp [upvoteIdea, hf, hr, runTransaction, upvoteIdeaBody, hd,
              Thrown.isHttpsError]
          | some upv =>
            cases hv : db.getVote ref.path a.uid with
            | some v =>
              left
              simp [upvoteIdea, hf, hr, runTransaction, upvoteIdeaBody, hd, hv,
                Thrown.isHttpsError]
            | none =>
              right
              refine ⟨ref, a.uid, upv, hd, hv, ?_⟩
              simp [upvoteIdea, hf, hr, runTransaction, upvoteIdeaBody, hd, hv]

/-- The two writes of a successful upvote keep counter and ledger size in
step on every idea. -/
theorem counter_ledger_step (db : Firestore) (i u : String) (v : VoteData) (d : IdeaData)
    (hd : db.getIdea i = some d) (hv : db.getVote i u = none) (j : String)
    (dj : IdeaData) (hj : db.getIdea j = some dj)
    (hinv : orZero dj.upvotes = (db.votesSize j : Int)) :
    ∃ d', ((db.setVote i u v).updateUpvotes i (orZero d.upvotes + 1)).getIdea j = some d'
      ∧ orZero d'.upvotes
          = (((db.setVote i u v).updateUpvotes i (orZero d.upvotes + 1)).votesSize j : Int) := by
  by_cases hji : j = i
  · subst hji
    rw [hd] at hj
    cases hj
    refine ⟨_, getIdea_after_upvote db j u v _ d hd, ?_⟩
    rw [Firestore.votesSize_updateUpvotes, Firestore.votesSize_setVote_new db j u v hv]
    simp only [orZero_some, hinv, Nat.cast_add, Nat.cast_one]
  · refine ⟨dj, ?_, ?_⟩
    · rw [Firestore.getIdea_updateUpvotes_other _ i j _ hji, Firestore.getIdea_setVote, hj]
    · rw [Firestore.votesSize_updateUpvotes, Firestore.votesSize_setVote_other db i u j v hji]
      exact hinv

/-- The two writes of a successful upvote on any reference keep counter and
ledger size in step on every idea. -/
theorem counter_ledger_step_ref (db : Firestore) (ref : DocRef) (u : String)
    (v : VoteData) (upv : Option Int) (hd : db.getUpvotes ref = some upv)
    (hv : db.getVote ref.path u = none) (j : String) (dj : IdeaData)
    (hj : db.getIdea j = some dj) (hinv : orZero dj.upvotes = (db.votesSize j : Int)) :
    ∃ d', ((db.setVote ref.path u v).updateRef ref (orZero upv + 1)).getIdea j = some d'
      ∧ orZero d'.upvotes
          = (((db.setVote ref.path u v).updateRef ref (orZero upv + 1)).votesSize j : Int) := by
  cases ref with
  | idea i =>
    cases hdi : db.getIdea i with
    | none => simp [Firestore.getUpvotes, hdi] at hd
    | some d =>
      have hupv : d.upvotes = upv := by simpa [Firestore.getUpvotes, hdi] using hd
      rw [← hupv]
      exact counter_ledger_step db i u v d hdi hv j dj hj hinv
  | vote p w =>
    have hne : j ≠ (DocRef.vote p w).path :=
      vote_path_ne_docId p w j (Firestore.isDocId_of_getIdea db j dj hj)
    refine ⟨dj, ?_, ?_⟩
    · simp only [Firestore.updateRef, Firestore.getIdea_updateVoteUpvotes,
        Firestore.getIdea_setVote, hj]
    · simp only [Firestore.updateRef]
      rw [Firestore.votesSize_updateVoteUpvotes,
        Firestore.votesSize_setVote_other db _ u j v hne]
      exact hinv
  | other path => simp [Firestore.getUpvotes] at hd

theorem getVote_none_of_votesSize_zero (db : Firestore) (i u : String)
    (h : db.votesSize i = 0) : db.getVote i u = none := by
  apply (assocGet_eq_none db.votes (i, u)).2
  intro e he heq
  have hnil : db.voteIds i = [] := List.length_eq_zero.1 h
  have hmem : e.1.2 ∈ db.voteIds i := by
    unfold Firestore.voteIds
    rw [List.mem_dedup]
    apply List.mem_map.2
    refine ⟨e, List.mem_filter.2 ⟨he, ?_⟩, rfl⟩
    simp [heq]
  rw [hnil] at hmem
  exact List.not_mem_nil _ hmem

/-- A run of upvotes of one idea by distinct users without a vote record:
every call succeeds, the ledger grows by the number of calls and so does the
counter. -/
theorem upvoteAll_spec (i : String) (hi : i ≠ "") :
    ∀ (calls : List (String × Nat)) (db : Firestore) (d : IdeaData) (n : Int),
      db.getIdea i = some d → d.upvotes = some n → (calls.map Prod.fst).Nodup →
      (∀ c ∈ calls, db.getVote i c.1 = none) →
      (∀ r ∈ (upvoteAll i calls db).1, ∃ resp, r = .ok resp ∧ resp.success = true)
      ∧ (upvoteAll i calls db).1.length = calls.length
      ∧ (upvoteAll i calls db).2.votesSize i = db.votesSize i + calls.length
      ∧ ∃ d', (upvoteAll i calls db).2.getIdea i = some d'
          ∧ d'.upvotes = some (n + (calls.length : Int)) := by
  intro calls
  induction calls with
  | nil =>
    intro db d n hd hn _ _
    refine ⟨?_, rfl, rfl, d, hd, ?_⟩
    · intro r hr
      exact absurd hr (List.not_mem_nil r)
    · simp [hn]
  | cons c rest ih =>
    intro db d n hd hn hnodup hnone
    obtain ⟨u, now⟩ := c
    have hv : db.getVote i u = none := hnone (u, now) (List.mem_cons_self _ _)
    have hok := upvoteIdea_ok now i u db d hi hd hv
    have hnd : u ∉ rest.map Prod.fst ∧ (rest.map Prod.fst).Nodup := by
      simpa using hnodup
    have hd1 := getIdea_after_upvote db i u { votedAt := now, userId := u }
      (orZero d.upvotes + 1) d hd
    have hnone1 : ∀ c ∈ rest,
        ((db.setVote i u { votedAt := now, userId := u }).updateUpvotes i
          (orZero d.upvotes + 1)).getVote i c.1 = none := by
      intro c hc
      have hne : (i, c.1) ≠ (i, u) := by
        intro h
        apply hnd.1
        rw [← (Prod.mk.inj h).2]
        exact List.mem_map.2 ⟨c, hc, rfl⟩
      rw [Firestore.getVote_updateUpvotes, Firestore.getVote_setVote_other db i u i c.1 _ hne]
      exact hnone c (List.mem_cons_of_mem _ hc)
    obtain ⟨h1, h2, h3, d', h4, h5⟩ := ih _ _ (orZero d.upvotes + 1) hd1 rfl hnd.2 hnone1
    simp only [upvoteAll, hok]
    refine ⟨?_, ?_, ?_, d', h4, ?_⟩
    · intro r hr
      rcases List.mem_cons.1 hr with hr | hr
      · exact ⟨_, hr, rfl⟩
      · exact h1 r hr
    · simp [h2]
    · rw [h3, Firestore.votesSize_updateUpvotes,
        Firestore.votesSize_setVote_new db i u _ hv]
      simp only [List.length_cons]
      omega
    · rw [h5, hn, orZero_some]
      simp only [List.length_cons, Nat.cast_add, Nat.cast_one]
      congr 1
      ring

/-! ## Lemmas on the handlers of `pages/app.jsx` -/

/-- The path of `handleUpvote` that commits: configured store, signed-in
user, existing idea. -/
theorem handleUpvote_ok (i : String) (w : World) (db : Firestore) (usr : User)
    (d : IdeaData) (hdb : w.db = some db) (hu : w.app.user = some usr)
    (hd : db.getIdea i = some d) :
    handleUpvote none i w
      = { w with db := some (db.updateUpvotes i (orZero d.upvotes + 1)) } := by
  simp [handleUpvote, hdb, hu, runTransaction, handleUpvoteBody, hd]

/-- The path of `handleUpvote` taken while no user is signed in. -/
theorem handleUpvote_signedOut (fault : Option Thrown) (i : String) (w : World)
    (db : Firestore) (hdb : w.db = some db) (hu : w.app.user = none) :
    handleUpvote fault i w
      = { w with alerts := w.alerts ++ ["Please wait for authentication to complete"] } := by
  simp [handleUpvote, hdb, hu]

/-- The idea read back after the write of `handleUpvote`. -/
theorem getIdea_after_handleUpvote (db : Firestore) (i : String) (n : Int) (d : IdeaData)
    (hd : db.getIdea i = some d) :
    (db.updateUpvotes i n).getIdea i = some { d with upvotes := some n } := by
  rw [Firestore.getIdea_updateUpvotes_self, hd]
  rfl

/-- On a configured store `handleUpvote` either leaves the database as it was
or commits the increment of an existing idea. -/
theorem handleUpvote_db_cases (fault : Option Thrown) (k : String) (w : World)
    (db : Firestore) (hdb : w.db = some db) :
    (handleUpvote fault k w).db = some db
    ∨ ∃ d, db.getIdea k = some d
        ∧ (handleUpvote fault k w).db = some (db.updateUpvotes k (orZero d.upvotes + 1)) := by
  cases hu : w.app.user with
  | none =>
    left
    rw [handleUpvote_signedOut fault k w db hdb hu]
    exact hdb
  | some usr =>
    cases fault with
    | some e =>
      left
      simp [handleUpvote, hdb, hu, runTransaction]
    | none =>
      cases hd : db.getIdea k with
      | none =>
        left
        simp [handleUpvote, hdb, hu, runTransaction, handleUpvoteBody, hd]
      | some d =>
        right
        refine ⟨d, rfl, ?_⟩
        rw [handleUpvote_ok k w db usr d hdb hu hd]

/-- The run of `N` calls of `handleUpvote` on an existing idea. -/
theorem handleUpvote_iterate (i : String) (N : Nat) :
    ∀ (w : World) (db : Firestore) (usr : User) (d : IdeaData),
      w.db = some db → w.app.user = some usr → db.getIdea i = some d →
      ∃ dbN dN, ((handleUpvote none i)^[N] w).db = some dbN
        ∧ ((handleUpvote none i)^[N] w).app = w.app
        ∧ ((handleUpvote none i)^[N] w).alerts = w.alerts
        ∧ dbN.getIdea i = some dN
        ∧ orZero dN.upvotes = orZero d.upvotes + (N : Int) := by
  induction N with
  | zero =>
    intro w db usr d hdb _ hd
    exact ⟨db, d, hdb, rfl, rfl, hd, by simp⟩
  | succ n ih =>
    intro w db usr d hdb hu hd
    obtain ⟨dbn, dn, h1, h2, h3, h4, h5⟩ := ih w db usr d hdb hu hd
    have hu1 : ((handleUpvote none i)^[n] w).app.user = some usr := by rw [h2, hu]
    have hstep := handleUpvote_ok i _ dbn usr dn h1 hu1 h4
    rw [Function.iterate_succ_apply', hstep]
    refine ⟨_, _, rfl, h2, h3, getIdea_after_handleUpvote dbn i _ dn h4, ?_⟩
    simp only [orZero_some, h5, Nat.cast_add, Nat.cast_one]
    ring

theorem jsTrim_sublist (s : String) : (jsTrim s).data.Sublist s.data := by
  unfold jsTrim
  have h1 : ((s.data.dropWhile isJsWhiteSpace).reverse.dropWhile isJsWhiteSpace).Sublist
      (s.data.dropWhile isJsWhiteSpace).reverse := List.dropWhile_sublist _
  have h2 := List.reverse_sublist.2 h1
  rw [List.reverse_reverse] at h2
  exact h2.trans (List.dropWhile_sublist _)

theorem jsLength_jsTrim_le (s : String) : jsLength (jsTrim s) ≤ jsLength s := by
  unfold jsLength
  exact ((jsTrim_sublist s).map _).sum_le_sum (fun _ _ => Nat.zero_le _)

theorem length_jsTrim_le (s : String) : (jsTrim s).length ≤ s.length :=
  (jsTrim_sublist s).length_le

theorem length_le_utf16 (l : List Char) :
    l.length ≤ (l.map (fun c => if 0x10000 ≤ c.toNat then 2 else 1)).sum := by
  induction l with
  | nil => simp
  | cons c rest ih =>
    simp only [List.length_cons, List.map_cons, List.sum_cons]
    split_ifs <;> omega

theorem length_le_jsLength (s : String) : s.length ≤ jsLength s :=
  length_le_utf16 s.data

/-! ## Lemmas for the vote-status query, the error codes and the demo mode -/

/-- A call of `upvoteIdea` that returns a response ran on a reachable backend,
built a reference, found its document and found no vote record below it. -/
theorem upvoteIdea_ok_inv (fault : Option Thrown) (now : Nat) (i u : String)
    (db : Firestore) (resp : UpvoteResponse) (hi : i ≠ "")
    (h : (upvoteIdea fault now ⟨some i⟩ ⟨some ⟨u⟩⟩ db).1 = .ok resp) :
    fault = none ∧ ∃ ref upv, docRef i = some ref ∧ db.getUpvotes ref = some upv
      ∧ db.getVote ref.path u = none := by
  cases hr : docRef i with
  | none =>
    rw [upvoteIdea_badPath fault now i u db hi hr] at h
    simp [docPathError] at h
  | some ref =>
    cases fault with
    | some e =>
      exfalso
      by_cases he : e.isHttpsError = true
      · simp [upvoteIdea, ideaIdFalsy_some i hi, hr, runTransaction, he] at h
      · simp [upvoteIdea, ideaIdFalsy_some i hi, hr, runTransaction, he] at h
    | none =>
      refine ⟨rfl, ?_⟩
      cases hd : db.getUpvotes ref with
      | none =>
        rw [upvoteIdea_ref_missing now i u db ref hr hd] at h
        cases h
      | some upv =>
        cases hv : db.getVote ref.path u with
        | some v =>
          rw [upvoteIdea_ref_alreadyExists now i u db ref upv v hr hd hv] at h
          cases h
        | none => exact ⟨ref, upv, rfl, hd, hv⟩

/-- The read `hasUserVoted` performs on a reachable backend. -/
theorem hasUserVoted_read (i u : String) (db : Firestore) (ref : DocRef)
    (hr : docRef i = some ref) :
    hasUserVoted none ⟨some i⟩ ⟨some ⟨u⟩⟩ db
      = (.ok { hasVoted := (db.getVote ref.path u).isSome,
               votedAt := (db.getVote ref.path u).map (fun v => v.votedAt) }, db) := by
  have hi := ne_empty_of_docRef i ref hr
  cases hv : db.getVote ref.path u with
  | none => simp [hasUserVoted, ideaIdFalsy_some i hi, hr, hv]
  | some v => simp [hasUserVoted, ideaIdFalsy_some i hi, hr, hv]

/-- On a path `doc` rejects, `hasUserVoted` catches the error. -/
theorem hasUserVoted_badPath (fault : Option Thrown) (i u : String) (db : Firestore)
    (hi : i ≠ "") (hr : docRef i = none) :
    hasUserVoted fault ⟨some i⟩ ⟨some ⟨u⟩⟩ db
      = (.error (.httpsError "internal" "An error occurred while checking vote status."),
         db) := by
  simp [hasUserVoted, ideaIdFalsy_some i hi, hr]

/-- With a fault injected, `upvoteIdea` past its argument checks and the
building of its references surfaces the fault as the `catch` block maps
it. -/
theorem upvoteIdea_fault (e : Thrown) (now : Nat) (i u : String) (db : Firestore)
    (ref : DocRef) (hr : docRef i = some ref) :
    upvoteIdea (some e) now ⟨some i⟩ ⟨some ⟨u⟩⟩ db
      = (.error (if e.isHttpsError then e
                 else .httpsError "internal" "An error occurred while upvoting the idea."),
         db) := by
  have hi := ne_empty_of_docRef i ref hr
  by_cases he : e.isHttpsError = true
  · simp [upvoteIdea, ideaIdFalsy_some i hi, hr, runTransaction, he]
  · simp [upvoteIdea, ideaIdFalsy_some i hi, hr, runTransaction, he]

/-- What the transaction body of `upvoteIdea` throws. -/
theorem upvoteIdeaBody_error (ref : DocRef) (u : String) (now : Nat) (db : Firestore)
    (e : Thrown) (h : upvoteIdeaBody ref u now db = .error e) :
    e = .httpsError "not-found" "Idea not found."
    ∨ e = .httpsError "already-exists" "User has already upvoted this idea." := by
  unfold upvoteIdeaBody at h
  cases hd : db.getUpvotes ref with
  | none =>
    rw [hd] at h
    left
    exact (Except.error.inj h).symm
  | some upv =>
    rw [hd] at h
    cases hv : db.getVote ref.path u with
    | some v =>
      rw [hv] at h
      right
      exact (Except.error.inj h).symm
    | none =>
      rw [hv] at h
      cases h

/-- A call of `upvoteIdea` that throws returns the database as it was. -/
theorem upvoteIdea_error_db (fault : Option Thrown) (now : Nat) (data : CallData)
    (context : CallableContext) (db : Firestore) (e : Thrown)
    (h : (upvoteIdea fault now data context db).1 = .error e) :
    (upvoteIdea fault now data context db).2 = db := by
  obtain ⟨auth⟩ := context
  cases auth with
  | none => rfl
  | some a =>
    by_cases hf : data.ideaIdFalsy = true
    · simp [upvoteIdea, hf]
    · cases hr : docRef (data.ideaId.getD "") with
      | none => simp [upvoteIdea, hf, hr]
      | some ref =>
        cases fault with
        | some e1 =>
          by_cases he : e1.isHttpsError = true
          · simp [upvoteIdea, hf, hr, runTransaction, he]
          · simp [upvoteIdea, hf, hr, runTransaction, he]
        | none =>
          cases hd : db.getUpvotes ref with
          | none =>
            simp [upvoteIdea, hf, hr, runTransaction, upvoteIdeaBody, hd,
              Thrown.isHttpsError]
          | some upv =>
            cases hv : db.getVote ref.path a.uid with
            | some v =>
              simp [upvoteIdea, hf, hr, runTransaction, upvoteIdeaBody, hd, hv,
                Thrown.isHttpsError]
            | none =>
              exfalso
              simp [upvoteIdea, hf, hr, runTransaction, upvoteIdeaBody, hd, hv] at h

/-- Every response `upvoteIdea` returns has `success = true`. -/
theorem upvoteIdea_ok_success (fault : Option Thrown) (now : Nat) (data : CallData)
    (context : CallableContext) (db : Firestore) (resp : UpvoteResponse)
    (h : (upvoteIdea fault now data context db).1 = .ok resp) :
    resp.success = true := by
  obtain ⟨auth⟩ := context
  cases auth with
  | none => simp [upvoteIdea] at h
  | some a =>
    by_cases hf : data.ideaIdFalsy = true
    · simp [upvoteIdea, hf] at h
    · cases hr : docRef (data.ideaId.getD "") with
      | none => simp [upvoteIdea, hf, hr] at h
      | some ref =>
        cases fault with
        | some e1 =>
          exfalso
          by_cases he : e1.isHttpsError = true
          · simp [upvoteIdea, hf, hr, runTransaction, he] at h
          · simp [upvoteIdea, hf, hr, runTransaction, he] at h
        | none =>
          cases hd : db.getUpvotes ref with
          | none =>
            exfalso
            simp [upvoteIdea, hf, hr, runTransaction, upvoteIdeaBody, hd,
              Thrown.isHttpsError] at h
          | some upv =>
            cases hv : db.getVote ref.path a.uid with
            | some v =>
              exfalso
              simp [upvoteIdea, hf, hr, runTransaction, upvoteIdeaBody, hd, hv,
                Thrown.isHttpsError] at h
            | none =>
              simp [upvoteIdea, hf, hr, runTransaction, upvoteIdeaBody, hd, hv] at h
              rw [← h]

/-- The path of a vote document differs from the path of its parent. -/
theorem vote_path_ne_parent (p w : String) : (DocRef.vote p w).path ≠ p := by
  intro h
  have hlen := congrArg String.length h
  simp only [DocRef.path, String.length_append] at hlen
  have h7 : "/votes/".length = 7 := by decide
  omega

/-- The vote record of a successful upvote, read back. -/
theorem getVote_after_upvote_ref (db : Firestore) (ref : DocRef) (u : String)
    (v : VoteData) (n : Int) :
    ((db.setVote ref.path u v).updateRef ref n).getVote ref.path u = some v := by
  cases ref with
  | idea i =>
    simp only [Firestore.updateRef, Firestore.getVote_updateUpvotes]
    exact Firestore.getVote_setVote_self db _ u v
  | vote p w =>
    have hne : ((DocRef.vote p w).path, u) ≠ (p, w) :=
      fun h => vote_path_ne_parent p w (Prod.mk.inj h).1
    simp only [Firestore.updateRef]
    rw [Firestore.getVote_updateVoteUpvotes_other _ p w _ u n hne]
    exact Firestore.getVote_setVote_self db _ u v
  | other path =>
    simp only [Firestore.updateRef]
    exact Firestore.getVote_setVote_self db _ u v

/-- The list `handleUpvote` installs when Firebase is not configured. -/
theorem handleUpvote_demo_ideas (fault : Option Thrown) (i : String) (w : World)
    (hdb : w.db = none) :
    handleUpvote fault i w
      = { w with
          app := { w.app with
            ideas := w.app.ideas.map (fun idea =>
              if idea.id = i then { idea with upvotes := some (orZero idea.upvotes + 1) }
              else idea) } } := by
  simp [handleUpvote, hdb]

/-! ## The claims -/

/-- C1. Idempotence of the gated upvote: when idea `i` exists and user `u` has
no vote record under it, two calls of `upvoteIdea` in sequence with the same
`(i, u)` give first a success and then an `already-exists` failure, the
second call leaves the database as the first one left it, and the counter
is then one more than its value before the first call (a missing counter
counting as 0). -/
theorem upvoteIdea_twice (now1 now2 : Nat) (i u : String) (db : Firestore)
    (d : IdeaData) (hi : i ≠ "") (hd : db.getIdea i = some d)
    (hv : db.getVote i u = none) :
    (∃ resp, (upvoteIdea none now1 ⟨some i⟩ ⟨some ⟨u⟩⟩ db).1 = .ok resp
        ∧ resp.success = true)
    ∧ upvoteIdea none now2 ⟨some i⟩ ⟨some ⟨u⟩⟩
          (upvoteIdea none now1 ⟨some i⟩ ⟨some ⟨u⟩⟩ db).2
        = (.error (.httpsError "already-exists" "User has already upvoted this idea."),
           (upvoteIdea none now1 ⟨some i⟩ ⟨some ⟨u⟩⟩ db).2)
    ∧ (upvoteIdea none now2 ⟨some i⟩ ⟨some ⟨u⟩⟩
          (upvoteIdea none now1 ⟨some i⟩ ⟨some ⟨u⟩⟩ db).2).2.getIdea i
        = some { d with upvotes := some (orZero d.upvotes + 1) } := by
  have h1 := upvoteIdea_ok now1 i u db d hi hd hv
  have hd1 := getIdea_after_upvote db i u { votedAt := now1, userId := u }
    (orZero d.upvotes + 1) d hd
  have hv1 : ((db.setVote i u { votedAt := now1, userId := u }).updateUpvotes i
      (orZero d.upvotes + 1)).getVote i u = some { votedAt := now1, userId := u } := by
    rw [Firestore.getVote_updateUpvotes, Firestore.getVote_setVote_self]
  have h2 := upvoteIdea_alreadyExists now2 i u _ _ _ hi hd1 hv1
  rw [h1]
  refine ⟨⟨_, rfl, rfl⟩, h2, ?_⟩
  rw [h2]
  exact hd1

/-- Witness of C1 on `sampleDb`, idea `a`, user `u`. -/
theorem upvoteIdea_twice_witness :
    ("a" ≠ "" ∧ sampleDb.getIdea "a"
        = some { text := "x", upvotes := none, createdAt := 1, authorUid := "u" }
      ∧ sampleDb.getVote "a" "u" = none)
    ∧ (upvoteIdea none 8 ⟨some "a"⟩ ⟨some ⟨"u"⟩⟩
          (upvoteIdea none 7 ⟨some "a"⟩ ⟨some ⟨"u"⟩⟩ sampleDb).2).2.getIdea "a"
        = some { text := "x", upvotes := some 1, createdAt := 1, authorUid := "u" } :=
  ⟨⟨by decide, by decide, by decide⟩,
   (upvoteIdea_twice 7 8 "a" "u" sampleDb
      { text := "x", upvotes := none, createdAt := 1, authorUid := "u" }
      (by decide) (by decide) (by decide)).2.2⟩

/-- C2. The successful gated upvote: when idea `i` exists with counter `c`
(missing or zero counting as 0) and user `u` has no vote record under it,
`upvoteIdea` returns `{success: true, upvotes: c+1, message: 'Idea upvoted
successfully!'}`; afterwards the vote record `(i, u)` exists, carries the
server timestamp and the user id, the idea has `upvotes = c+1` and its
other fields as before, and every other idea and every other vote record
reads as before. -/
theorem upvoteIdea_success (now : Nat) (i u : String) (db : Firestore) (d : IdeaData)
    (hi : i ≠ "") (hd : db.getIdea i = some d) (hv : db.getVote i u = none) :
    (upvoteIdea none now ⟨some i⟩ ⟨some ⟨u⟩⟩ db).1
        = .ok { success := true, upvotes := orZero d.upvotes + 1,
                message := "Idea upvoted successfully!" }
    ∧ (upvoteIdea none now ⟨some i⟩ ⟨some ⟨u⟩⟩ db).2.getVote i u
        = some { votedAt := now, userId := u }
    ∧ (upvoteIdea none now ⟨some i⟩ ⟨some ⟨u⟩⟩ db).2.getIdea i
        = some { d with upvotes := some (orZero d.upvotes + 1) }
    ∧ (∀ j, j ≠ i →
        (upvoteIdea none now ⟨some i⟩ ⟨some ⟨u⟩⟩ db).2.getIdea j = db.getIdea j)
    ∧ (∀ j w, (j, w) ≠ (i, u) →
        (upvoteIdea none now ⟨some i⟩ ⟨some ⟨u⟩⟩ db).2.getVote j w = db.getVote j w)
    ∧ (upvoteIdea none now ⟨some i⟩ ⟨some ⟨u⟩⟩ db).2.ideas.map Prod.fst
        = db.ideas.map Prod.fst := by
  rw [upvoteIdea_ok now i u db d hi hd hv]
  refine ⟨rfl, ?_, getIdea_after_upvote db i u _ _ d hd, ?_, ?_, ?_⟩
  · rw [Firestore.getVote_updateUpvotes, Firestore.getVote_setVote_self]
  · intro j hj
    rw [Firestore.getIdea_updateUpvotes_other _ i j _ hj, Firestore.getIdea_setVote]
  · intro j w hjw
    rw [Firestore.getVote_updateUpvotes, Firestore.getVote_setVote_other db i u j w _ hjw]
  · simp only [Firestore.updateUpvotes, Firestore.setVote, List.map_map]
    apply List.map_congr_left
    intro e _
    by_cases h : e.1 = i
    · simp [h]
    · simp [h]

/-- Witness of C2 on `sampleDb`, idea `b` (counter 3), user `w`. -/
theorem upvoteIdea_success_witness :
    ("b" ≠ "" ∧ sampleDb.getIdea "b"
        = some { text := "y", upvotes := some 3, createdAt := 2, authorUid := "v" }
      ∧ sampleDb.getVote "b" "w" = none)
    ∧ (upvoteIdea none 7 ⟨some "b"⟩ ⟨some ⟨"w"⟩⟩ sampleDb).1
        = .ok { success := true, upvotes := 4, message := "Idea upvoted successfully!" } :=
  ⟨⟨by decide, by decide, by decide⟩,
   (upvoteIdea_success 7 "b" "w" sampleDb
      { text := "y", upvotes := some 3, createdAt := 2, authorUid := "v" }
      (by decide) (by decide) (by decide)).1⟩

/-- C3, the code at two ids that name no idea.  On `sampleDb`, where user `u`
has voted on idea `b`: the request id `b/votes/u` is resolved to that vote
document, which exists, so `upvoteIdea` by `w` returns a success, writes
`upvotes = 1` into the vote document and creates a vote record below it;
the request id `a/b` makes `doc` throw before the `try`, so the call fails
with a plain error without code and not with `not-found`. -/
theorem upvoteIdea_slash_id :
    sampleDb.getIdea "b/votes/u" = none
    ∧ docRef "b/votes/u" = some (.vote "b" "u")
    ∧ upvoteIdea none 7 ⟨some "b/votes/u"⟩ ⟨some ⟨"w"⟩⟩ sampleDb
        = (.ok { success := true, upvotes := 1, message := "Idea upvoted successfully!" },
           { sampleDb with
             votes := [(("b/votes/u", "w"), { votedAt := 7, userId := "w" }),
                       (("b", "u"), { votedAt := 5, userId := "u", upvotes := some 1 })] })
    ∧ sampleDb.getIdea "a/b" = none
    ∧ docRef "a/b" = none
    ∧ upvoteIdea none 7 ⟨some "a/b"⟩ ⟨some ⟨"w"⟩⟩ sampleDb
        = (.error (docPathError "a/b"), sampleDb)
    ∧ (docPathError "a/b").code = none
    ∧ (docPathError "a/b").isHttpsError = false := by
  refine ⟨by decide, by decide, ?_, by decide, by decide, ?_, by decide, by decide⟩
  · rw [upvoteIdea_ref_ok 7 "b/votes/u" "w" sampleDb (.vote "b" "u") none (by decide)
      (by decide) (by decide)]
    rfl
  · exact upvoteIdea_badPath none 7 "a/b" "w" sampleDb (by decide) (by decide)

/-- C4. The gated upvote without authentication: whatever the request (a
missing `ideaId` included), the database, the timestamp and the state of
the backend, `upvoteIdea` with `context.auth` absent fails with code
`unauthenticated` and returns the database as it was; the outcome depends
on nothing read from the database. -/
theorem upvoteIdea_unauthenticated (fault : Option Thrown) (now : Nat) (data : CallData)
    (db : Firestore) :
    upvoteIdea fault now data ⟨none⟩ db
      = (.error (.httpsError "unauthenticated" "User must be authenticated to upvote."),
         db) := rfl

/-- C5. Counter and ledger under the gated mode: on every idea whose counter
(missing counting as 0) equals the size of its ledger, the equality still
holds after any call of `upvoteIdea`, whatever its arguments and outcome;
and from an idea with `upvotes = 0` and an empty ledger, `K` calls by `K`
distinct users all succeed, after which `getVoteCount` returns `K` and the
idea has `upvotes = K`. -/
theorem counter_ledger_invariant :
    (∀ (fault : Option Thrown) (now : Nat) (data : CallData) (context : CallableContext)
        (db : Firestore) (j : String) (d : IdeaData),
        db.getIdea j = some d → orZero d.upvotes = (db.votesSize j : Int) →
        ∃ d', (upvoteIdea fault now data context db).2.getIdea j = some d'
          ∧ orZero d'.upvotes
              = ((upvoteIdea fault now data context db).2.votesSize j : Int))
    ∧ (∀ (i : String) (calls : List (String × Nat)) (db : Firestore) (d : IdeaData),
        i ≠ "" → db.getIdea i = some d → d.upvotes = some 0 → db.votesSize i = 0 →
        (calls.map Prod.fst).Nodup →
        (∀ r ∈ (upvoteAll i calls db).1, ∃ resp, r = .ok resp ∧ resp.success = true)
        ∧ (upvoteAll i calls db).1.length = calls.length
        ∧ getVoteCount none ⟨some i⟩ (upvoteAll i calls db).2
            = (.ok calls.length, (upvoteAll i calls db).2)
        ∧ ∃ d', (upvoteAll i calls db).2.getIdea i = some d'
            ∧ d'.upvotes = some (calls.length : Int)) := by
  constructor
  · intro fault now data context db j d hd hinv
    rcases upvoteIdea_db_cases fault now data context db with h | ⟨ref, u, upv, hup, hv, h⟩
    · rw [h]
      exact ⟨d, hd, hinv⟩
    · rw [h]
      exact counter_ledger_step_ref db ref u _ upv hup hv j d hd hinv
  · intro i calls db d hi hd hn hsize hnodup
    have hnone : ∀ c ∈ calls, db.getVote i c.1 = none :=
      fun c _ => getVote_none_of_votesSize_zero db i c.1 hsize
    obtain ⟨h1, h2, h3, d', h4, h5⟩ := upvoteAll_spec i hi calls db d 0 hd hn hnodup hnone
    refine ⟨h1, h2, ?_, d', h4, ?_⟩
    · simp [getVoteCount, ideaIdFalsy_some i hi,
        docRef_of_isDocId i (Firestore.isDocId_of_getIdea db i d hd), DocRef.path, h3, hsize]
    · rw [h5, zero_add]

/-- Witness of C5: two users upvote idea `a` of `freshDb`. -/
theorem counter_ledger_invariant_witness :
    ("a" ≠ "" ∧ freshDb.votesSize "a" = 0
      ∧ ([("p", 1), ("q", 2)].map Prod.fst : List String).Nodup)
    ∧ getVoteCount none ⟨some "a"⟩ (upvoteAll "a" [("p", 1), ("q", 2)] freshDb).2
        = (.ok 2, (upvoteAll "a" [("p", 1), ("q", 2)] freshDb).2) :=
  ⟨⟨by decide, by decide, by decide⟩,
   (counter_ledger_invariant.2 "a" [("p", 1), ("q", 2)] freshDb
      { text := "x", upvotes := some 0, createdAt := 1, authorUid := "u" }
      (by decide) (by decide) rfl (by decide) (by decide)).2.2.1⟩

/-- C6. The ungated upvote: with a configured store, a signed-in user and an
existing idea `i` with counter `c` (missing or zero counting as 0),
`handleUpvote i` changes nothing but the database, where idea `i` gets
`upvotes = c+1` and keeps its other fields, every other idea reads as
before and the vote records are untouched; `N` calls in sequence leave the
counter at `c + N`; and no call of `handleUpvote`, whatever its argument
and outcome, lowers the counter of an idea. -/
theorem handleUpvote_increments (i : String) (w : World) (db : Firestore) (usr : User)
    (d : IdeaData) (hdb : w.db = some db) (hu : w.app.user = some usr)
    (hd : db.getIdea i = some d) :
    handleUpvote none i w
        = { w with db := some (db.updateUpvotes i (orZero d.upvotes + 1)) }
    ∧ (db.updateUpvotes i (orZero d.upvotes + 1)).getIdea i
        = some { d with upvotes := some (orZero d.upvotes + 1) }
    ∧ (∀ j, j ≠ i → (db.updateUpvotes i (orZero d.upvotes + 1)).getIdea j = db.getIdea j)
    ∧ (db.updateUpvotes i (orZero d.upvotes + 1)).votes = db.votes
    ∧ (∀ N : Nat, ∃ dbN dN, ((handleUpvote none i)^[N] w).db = some dbN
        ∧ dbN.getIdea i = some dN ∧ orZero dN.upvotes = orZero d.upvotes + (N : Int))
    ∧ (∀ (fault : Option Thrown) (k j : String) (dj : IdeaData), db.getIdea j = some dj →
        ∃ db1 dj1, (handleUpvote fault k w).db = some db1 ∧ db1.getIdea j = some dj1
          ∧ orZero dj.upvotes ≤ orZero dj1.upvotes) := by
  refine ⟨handleUpvote_ok i w db usr d hdb hu hd,
    getIdea_after_handleUpvote db i _ d hd,
    fun j hj => Firestore.getIdea_updateUpvotes_other db i j _ hj, rfl, ?_, ?_⟩
  · intro N
    obtain ⟨dbN, dN, h1, _, _, h4, h5⟩ := handleUpvote_iterate i N w db usr d hdb hu hd
    exact ⟨dbN, dN, h1, h4, h5⟩
  · intro fault k j dj hj
    rcases handleUpvote_db_cases fault k w db hdb with h | ⟨dk, hdk, h⟩
    · exact ⟨db, dj, h, hj, le_refl _⟩
    · by_cases hjk : j = k
      · subst hjk
        have hdj : dk = dj := Option.some.inj (hdk.symm.trans hj)
        refine ⟨_, _, h, getIdea_after_handleUpvote db j _ dk hdk, ?_⟩
        simp only [orZero_some, hdj]
        omega
      · refine ⟨_, dj, h, ?_, le_refl _⟩
        rw [Firestore.getIdea_updateUpvotes_other db k j _ hjk, hj]

/-- Witness of C6: three upvotes of idea `b` (counter 3) of `sampleWorld`. -/
theorem handleUpvote_increments_witness :
    (sampleWorld.db = some sampleDb ∧ sampleWorld.app.user = some ⟨"u"⟩
      ∧ sampleDb.getIdea "b"
          = some { text := "y", upvotes := some 3, createdAt := 2, authorUid := "v" })
    ∧ ∃ dbN dN, ((handleUpvote none "b")^[3] sampleWorld).db = some dbN
        ∧ dbN.getIdea "b" = some dN ∧ orZero dN.upvotes = 3 + ((3 : Nat) : Int) :=
  ⟨⟨rfl, rfl, by decide⟩,
   (handleUpvote_increments "b" sampleWorld sampleDb ⟨"u"⟩
      { text := "y", upvotes := some 3, createdAt := 2, authorUid := "v" }
      rfl rfl (by decide)).2.2.2.2.1 3⟩

/-- C8. What the ungated upvote does on a missing idea: with a configured
store and a signed-in user, for an id that names no idea the transaction
body throws a plain `Error`, whose `code` is undefined; the handler
therefore shows `Failed to upvote: Idea does not exist - it may have been
deleted` and not the message of its `not-found` branch.  Nothing is written
to the database. -/
theorem handleUpvote_missing_idea (i : String) (w : World) (db : Firestore) (usr : User)
    (hdb : w.db = some db) (hu : w.app.user = some usr) (hd : db.getIdea i = none) :
    handleUpvoteBody i db = .error (.error "Idea does not exist - it may have been deleted")
    ∧ (Thrown.error "Idea does not exist - it may have been deleted").code = none
    ∧ handleUpvote none i w
        = { w with alerts := w.alerts ++
              ["Failed to upvote: Idea does not exist - it may have been deleted"] }
    ∧ upvoteAlert (.error "Idea does not exist - it may have been deleted")
        ≠ "This idea no longer exists. Please refresh the page." := by
  refine ⟨?_, rfl, ?_, by decide⟩
  · simp [handleUpvoteBody, hd]
  · simp [handleUpvote, hdb, hu, runTransaction, handleUpvoteBody, hd, upvoteAlert,
      Thrown.code, Thrown.message]

/-- Witness of C8: idea `zz` is not in `sampleDb`. -/
theorem handleUpvote_missing_idea_witness :
    (sampleWorld.db = some sampleDb ∧ sampleWorld.app.user = some ⟨"u"⟩
      ∧ sampleDb.getIdea "zz" = none)
    ∧ handleUpvote none "zz" sampleWorld
        = { sampleWorld with alerts :=
              ["Failed to upvote: Idea does not exist - it may have been deleted"] } :=
  ⟨⟨rfl, rfl, by decide⟩,
   (handleUpvote_missing_idea "zz" sampleWorld sampleDb ⟨"u"⟩ rfl rfl (by decide)).2.2.1⟩

/-- C9, the claim as stated fails: on the configured store `sampleDb`, with no
user signed in, `handleUpvote` on the existing idea `b` (counter 3) shows
an alert and leaves the database, and so the counter, as it was. -/
theorem handleUpvote_signedOut_counterexample :
    signedOutWorld.db = some sampleDb
    ∧ sampleDb.getIdea "b"
        = some { text := "y", upvotes := some 3, createdAt := 2, authorUid := "v" }
    ∧ (handleUpvote none "b" signedOutWorld).db = some sampleDb
    ∧ (handleUpvote none "b" signedOutWorld).alerts
        = ["Please wait for authentication to complete"]
    ∧ ((handleUpvote none "b" signedOutWorld).db.bind (fun db => db.getIdea "b")).map
        (fun d => orZero d.upvotes) ≠ some (3 + 1) := by
  decide

/-- C9, amended. On a configured store `handleUpvote` asks for a signed-in
user: for an existing idea `i` with counter `c` it writes `upvotes = c+1`
when a user is signed in, and when none is it shows `Please wait for
authentication to complete` and changes nothing else, the database
included. -/
theorem handleUpvote_requires_user (i : String) (w : World) (db : Firestore)
    (d : IdeaData) (hdb : w.db = some db) (hd : db.getIdea i = some d) :
    (∀ usr, w.app.user = some usr →
        (handleUpvote none i w).db = some (db.updateUpvotes i (orZero d.upvotes + 1))
        ∧ (db.updateUpvotes i (orZero d.upvotes + 1)).getIdea i
            = some { d with upvotes := some (orZero d.upvotes + 1) })
    ∧ (w.app.user = none → ∀ fault,
        handleUpvote fault i w
          = { w with alerts := w.alerts ++ ["Please wait for authentication to complete"] }) := by
  constructor
  · intro usr hu
    rw [handleUpvote_ok i w db usr d hdb hu hd]
    exact ⟨rfl, getIdea_after_handleUpvote db i _ d hd⟩
  · intro hu fault
    exact handleUpvote_signedOut fault i w db hdb hu

/-- Witness of the amended C9 on `signedOutWorld`. -/
theorem handleUpvote_requires_user_witness :
    (signedOutWorld.db = some sampleDb
      ∧ sampleDb.getIdea "b"
          = some { text := "y", upvotes := some 3, createdAt := 2, authorUid := "v" }
      ∧ signedOutWorld.app.user = none)
    ∧ handleUpvote none "b" signedOutWorld
        = { signedOutWorld with alerts := ["Please wait for authentication to complete"] } :=
  ⟨⟨rfl, by decide, rfl⟩,
   (handleUpvote_requires_user "b" signedOutWorld sampleDb
      { text := "y", upvotes := some 3, createdAt := 2, authorUid := "v" }
      rfl (by decide)).2 rfl none⟩

/-- C10. Submission: `handleSubmit` either leaves the idea list and the
database as they were, or the trimmed input is non-empty and the input has
at most 280 UTF-16 code units (hence at most 280 characters) and exactly
one idea was created, at the head of the local list or in the database,
with `text` the trimmed input (so of at most 280 code units) and
`upvotes = 0`; on an input that trims to the empty string it changes
nothing at all. -/
theorem handleSubmit_creates (fault : Option Thrown) (now : Nat) (newId : String)
    (w : World) :
    (((handleSubmit fault now newId w).app.ideas = w.app.ideas
        ∧ (handleSubmit fault now newId w).db = w.db)
      ∨ (jsTrim w.app.newIdea ≠ ""
          ∧ jsLength w.app.newIdea ≤ 280 ∧ w.app.newIdea.length ≤ 280
          ∧ jsLength (jsTrim w.app.newIdea) ≤ 280 ∧ (jsTrim w.app.newIdea).length ≤ 280
          ∧ ((∃ idea : Idea,
                (handleSubmit fault now newId w).app.ideas = idea :: w.app.ideas
                ∧ (handleSubmit fault now newId w).db = w.db
                ∧ idea.text = jsTrim w.app.newIdea ∧ idea.upvotes = some 0)
            ∨ (∃ (db : Firestore) (data : IdeaData), w.db = some db
                ∧ (handleSubmit fault now newId w).db = some (db.addIdea newId data)
                ∧ (handleSubmit fault now newId w).app.ideas = w.app.ideas
                ∧ data.text = jsTrim w.app.newIdea ∧ data.upvotes = some 0))))
    ∧ (jsTrim w.app.newIdea = "" → handleSubmit fault now newId w = w) := by
  constructor
  · by_cases h1 : jsTrim w.app.newIdea = ""
    · left
      simp [handleSubmit, h1]
    · by_cases h2 : jsLength w.app.newIdea > 280
      · left
        simp [handleSubmit, h1, h2]
      · have h3 : jsLength w.app.newIdea ≤ 280 := Nat.le_of_not_gt h2
        have h4 := length_le_jsLength w.app.newIdea
        have h5 := jsLength_jsTrim_le w.app.newIdea
        have h6 := length_jsTrim_le w.app.newIdea
        cases hdb : w.db with
        | none =>
          right
          refine ⟨h1, h3, by omega, by omega, by omega, Or.inl
            ⟨⟨"demo-" ++ toString now, jsTrim w.app.newIdea, some 0, now, "demo-user"⟩,
              ?_, ?_, rfl, rfl⟩⟩
          · simp only [handleSubmit, h1, h2, hdb, if_false]
          · simp only [handleSubmit, h1, h2, hdb, if_false]
        | some db =>
          cases hu : w.app.user with
          | none =>
            right
            refine ⟨h1, h3, by omega, by omega, by omega, Or.inl
            ⟨⟨"demo-" ++ toString now, jsTrim w.app.newIdea, some 0, now, "demo-user"⟩,
              ?_, ?_, rfl, rfl⟩⟩
            · simp only [handleSubmit, h1, h2, hdb, hu, if_false]
            · simp only [handleSubmit, h1, h2, hdb, hu, if_false]
          | some usr =>
            cases fault with
            | some e =>
              left
              simp [handleSubmit, h1, h2, hdb, hu]
            | none =>
              right
              refine ⟨h1, h3, by omega, by omega, by omega,
                Or.inr ⟨db, ⟨jsTrim w.app.newIdea, some 0, now, usr.uid⟩, rfl, ?_, ?_, rfl, rfl⟩⟩
              · simp only [handleSubmit, h1, h2, hdb, hu, if_false]
              · simp only [handleSubmit, h1, h2, hdb, hu, if_false]
  · intro h1
    simp [handleSubmit, h1]

/-- Witness of C10: a submission of blanks only changes nothing. -/
theorem handleSubmit_creates_witness :
    jsTrim ({ sampleWorld with app := { sampleWorld.app with newIdea := " \t " } } : World).app.newIdea
        = ""
    ∧ handleSubmit none 9 "n"
          { sampleWorld with app := { sampleWorld.app with newIdea := " \t " } }
        = { sampleWorld with app := { sampleWorld.app with newIdea := " \t " } } :=
  ⟨by decide,
   (handleSubmit_creates none 9 "n"
      { sampleWorld with app := { sampleWorld.app with newIdea := " \t " } }).2
      (by decide)⟩

/-- C11, the claim as stated fails: `a/b` is a non-empty id and no vote record
exists for it and user `u` in `sampleDb`, yet `hasUserVoted` returns no
response with `hasVoted = false`: building the reference throws inside the
`try` and the call fails with `internal`. -/
theorem hasUserVoted_slash_counterexample :
    "a/b" ≠ ""
    ∧ sampleDb.getVote "a/b" "u" = none
    ∧ docRef "a/b" = none
    ∧ hasUserVoted none ⟨some "a/b"⟩ ⟨some ⟨"u"⟩⟩ sampleDb
        = (.error (.httpsError "internal" "An error occurred while checking vote status."),
           sampleDb)
    ∧ ¬ ∃ r, (hasUserVoted none ⟨some "a/b"⟩ ⟨some ⟨"u"⟩⟩ sampleDb).1 = .ok r := by
  have h := hasUserVoted_badPath none "a/b" "u" sampleDb (by decide) (by decide)
  refine ⟨by decide, by decide, by decide, h, ?_⟩
  rintro ⟨r, hr⟩
  rw [h] at hr
  cases hr

/-- C11, amended. The vote-status query on a reachable backend, for an
authenticated user `u` and a non-empty idea id `i`.  When `i` is a
document id, and more generally when the SDK accepts `i` as the path of a
document, `hasUserVoted` returns the database as it was together with a
response whose `hasVoted` is true exactly when the vote record of `u`
below that document exists and whose `votedAt` is that record's
timestamp, or `null` when there is none; after a call of `upvoteIdea` by
`u` on `i` that returned a response it answers `hasVoted = true` with the
timestamp of that call.  When the SDK rejects `i` as the path of a
document, it fails with `internal` and returns the database as it was. -/
theorem hasUserVoted_spec (i u : String) (db : Firestore) (hi : i ≠ "") :
    (isDocId i = true →
        (hasUserVoted none ⟨some i⟩ ⟨some ⟨u⟩⟩ db).2 = db
        ∧ ∃ r, (hasUserVoted none ⟨some i⟩ ⟨some ⟨u⟩⟩ db).1 = .ok r
          ∧ (r.hasVoted = true ↔ ∃ v, db.getVote i u = some v)
          ∧ (∀ v, db.getVote i u = some v → r.votedAt = some v.votedAt)
          ∧ (db.getVote i u = none → r.votedAt = none))
    ∧ (∀ ref, docRef i = some ref →
        (hasUserVoted none ⟨some i⟩ ⟨some ⟨u⟩⟩ db).2 = db
        ∧ ∃ r, (hasUserVoted none ⟨some i⟩ ⟨some ⟨u⟩⟩ db).1 = .ok r
          ∧ (r.hasVoted = true ↔ ∃ v, db.getVote ref.path u = some v)
          ∧ (∀ v, db.getVote ref.path u = some v → r.votedAt = some v.votedAt)
          ∧ (db.getVote ref.path u = none → r.votedAt = none))
    ∧ (∀ (fault : Option Thrown) (now : Nat) (resp : UpvoteResponse),
        (upvoteIdea fault now ⟨some i⟩ ⟨some ⟨u⟩⟩ db).1 = .ok resp →
        hasUserVoted none ⟨some i⟩ ⟨some ⟨u⟩⟩
            (upvoteIdea fault now ⟨some i⟩ ⟨some ⟨u⟩⟩ db).2
          = (.ok { hasVoted := true, votedAt := some now },
             (upvoteIdea fault now ⟨some i⟩ ⟨some ⟨u⟩⟩ db).2))
    ∧ (docRef i = none → ∀ fault : Option Thrown,
        hasUserVoted fault ⟨some i⟩ ⟨some ⟨u⟩⟩ db
          = (.error (.httpsError "internal" "An error occurred while checking vote status."),
             db)) := by
  have hgen : ∀ ref, docRef i = some ref →
      (hasUserVoted none ⟨some i⟩ ⟨some ⟨u⟩⟩ db).2 = db
      ∧ ∃ r, (hasUserVoted none ⟨some i⟩ ⟨some ⟨u⟩⟩ db).1 = .ok r
        ∧ (r.hasVoted = true ↔ ∃ v, db.getVote ref.path u = some v)
        ∧ (∀ v, db.getVote ref.path u = some v → r.votedAt = some v.votedAt)
        ∧ (db.getVote ref.path u = none → r.votedAt = none) := by
    intro ref hr
    rw [hasUserVoted_read i u db ref hr]
    refine ⟨rfl, _, rfl, ?_, ?_, ?_⟩
    · exact Option.isSome_iff_exists
    · intro v hv
      simp only [hv, Option.map_some']
    · intro hv
      simp only [hv, Option.map_none']
  refine ⟨?_, hgen, ?_, ?_⟩
  · intro hid
    exact hgen (.idea i) (docRef_of_isDocId i hid)
  · intro fault now resp h
    obtain ⟨hfault, ref, upv, hr, hd, hv⟩ := upvoteIdea_ok_inv fault now i u db resp hi h
    subst hfault
    rw [hasUserVoted_read i u _ ref hr, upvoteIdea_ref_ok now i u db ref upv hr hd hv,
      getVote_after_upvote_ref]
    rfl
  · intro hr fault
    exact hasUserVoted_badPath fault i u db hi hr

/-- Witness of the amended C11: in `sampleDb` user `u` voted on idea `b` at
time 5. -/
theorem hasUserVoted_spec_witness :
    ("b" ≠ "" ∧ isDocId "b" = true
      ∧ sampleDb.getVote "b" "u" = some { votedAt := 5, userId := "u" })
    ∧ ∃ r, (hasUserVoted none ⟨some "b"⟩ ⟨some ⟨"u"⟩⟩ sampleDb).1 = .ok r
        ∧ r.hasVoted = true ∧ r.votedAt = some 5 :=
  ⟨⟨by decide, by decide, by decide⟩,
   match (hasUserVoted_spec "b" "u" sampleDb (by decide)).1 (by decide) with
   | ⟨_, r, hr, hvoted, hat, _⟩ =>
     ⟨r, hr, hvoted.2 ⟨_, (by decide : sampleDb.getVote "b" "u"
        = some { votedAt := 5, userId := "u" })⟩,
      hat _ (by decide : sampleDb.getVote "b" "u" = some { votedAt := 5, userId := "u" })⟩⟩

/-- C12. The error codes of `upvoteIdea`: an authenticated call whose `ideaId`
is missing or empty fails with `invalid-argument`; once the references are
built, an error the transaction body throws is a `not-found` or an
`already-exists` `HttpsError` and is surfaced as it is, as is any
`HttpsError` the transaction rejects with, and any other error the
transaction rejects with is surfaced as `internal`.  A call that fails
returns the database as it was, and every response that is returned has
`success = true`, so no failing call yields one.  A non-empty id that `doc`
rejects never reaches the transaction: the plain error of `doc` leaves the
function before the `try`. -/
theorem upvoteIdea_error_codes :
    (∀ (fault : Option Thrown) (now : Nat) (data : CallData) (auth : Auth) (db : Firestore),
        data.ideaIdFalsy = true →
        upvoteIdea fault now data ⟨some auth⟩ db
          = (.error (.httpsError "invalid-argument" "ideaId is required."), db))
    ∧ (∀ (now : Nat) (i u : String) (db : Firestore) (ref : DocRef) (e : Thrown),
        i ≠ "" → docRef i = some ref →
        upvoteIdeaBody ref u now db = .error e →
        (e = .httpsError "not-found" "Idea not found."
          ∨ e = .httpsError "already-exists" "User has already upvoted this idea.")
        ∧ upvoteIdea none now ⟨some i⟩ ⟨some ⟨u⟩⟩ db = (.error e, db))
    ∧ (∀ (now : Nat) (i u : String) (db : Firestore) (ref : DocRef) (e : Thrown),
        i ≠ "" → docRef i = some ref → e.isHttpsError = true →
        upvoteIdea (some e) now ⟨some i⟩ ⟨some ⟨u⟩⟩ db = (.error e, db))
    ∧ (∀ (now : Nat) (i u : String) (db : Firestore) (ref : DocRef) (e : Thrown),
        i ≠ "" → docRef i = some ref → e.isHttpsError = false →
        upvoteIdea (some e) now ⟨some i⟩ ⟨some ⟨u⟩⟩ db
          = (.error (.httpsError "internal" "An error occurred while upvoting the idea."),
             db))
    ∧ (∀ (fault : Option Thrown) (now : Nat) (data : CallData) (context : CallableContext)
        (db : Firestore) (e : Thrown),
        (upvoteIdea fault now data context db).1 = .error e →
        (upvoteIdea fault now data context db).2 = db)
    ∧ (∀ (fault : Option Thrown) (now : Nat) (data : CallData) (context : CallableContext)
        (db : Firestore) (resp : UpvoteResponse),
        (upvoteIdea fault now data context db).1 = .ok resp → resp.success = true)
    ∧ (∀ (i : String), isDocId i = true → docRef i = some (.idea i))
    ∧ (∀ (fault : Option Thrown) (now : Nat) (i u : String) (db : Firestore),
        i ≠ "" → docRef i = none →
        upvoteIdea fault now ⟨some i⟩ ⟨some ⟨u⟩⟩ db = (.error (docPathError i), db)) := by
  refine ⟨?_, ?_, ?_, ?_, upvoteIdea_error_db, upvoteIdea_ok_success, docRef_of_isDocId,
    upvoteIdea_badPath⟩
  · intro fault now data auth db hf
    simp [upvoteIdea, hf]
  · intro now i u db ref e hi hr h
    have hcases := upvoteIdeaBody_error ref u now db e h
    refine ⟨hcases, ?_⟩
    have hhttps : e.isHttpsError = true := by
      rcases hcases with he | he <;> rw [he] <;> rfl
    simp [upvoteIdea, ideaIdFalsy_some i hi, hr, runTransaction, h, hhttps]
  · intro now i u db ref e _ hr he
    rw [upvoteIdea_fault e now i u db ref hr, if_pos he]
  · intro now i u db ref e _ hr he
    rw [upvoteIdea_fault e now i u db ref hr, he]
    rfl

/-- Witness of C12: a request without `ideaId`, and a backend that rejects
with the Firestore error `unavailable`. -/
theorem upvoteIdea_error_codes_witness :
    (CallData.ideaIdFalsy ⟨none⟩ = true
      ∧ upvoteIdea none 7 ⟨none⟩ ⟨some ⟨"u"⟩⟩ sampleDb
          = (.error (.httpsError "invalid-argument" "ideaId is required."), sampleDb))
    ∧ ("a" ≠ "" ∧ docRef "a" = some (.idea "a")
      ∧ (Thrown.firestoreError "unavailable" "backend down").isHttpsError = false
      ∧ upvoteIdea (some (.firestoreError "unavailable" "backend down")) 7 ⟨some "a"⟩
            ⟨some ⟨"u"⟩⟩ sampleDb
          = (.error (.httpsError "internal" "An error occurred while upvoting the idea."),
             sampleDb)) :=
  ⟨⟨rfl, upvoteIdea_error_codes.1 none 7 ⟨none⟩ ⟨"u"⟩ sampleDb rfl⟩,
   ⟨by decide, by decide, rfl,
    upvoteIdea_error_codes.2.2.2.1 7 "a" "u" sampleDb (.idea "a")
      (.firestoreError "unavailable" "backend down") (by decide) (by decide) rfl⟩⟩

/-- C13. The demo-mode upvote: when no store is configured, `handleUpvote id`
changes only the local idea list, which keeps its length and order; at
every position an idea whose id is `id` gets `upvotes` equal to its
previous value (missing or zero counting as 0) plus 1 and keeps its other
fields, and any other idea stays as it was; when no idea of the list has
that id, nothing changes. -/
theorem handleUpvote_demo (fault : Option Thrown) (i : String) (w : World)
    (hdb : w.db = none) :
    (handleUpvote fault i w).db = none
    ∧ (handleUpvote fault i w).alerts = w.alerts
    ∧ (handleUpvote fault i w).app.newIdea = w.app.newIdea
    ∧ (handleUpvote fault i w).app.isSubmitting = w.app.isSubmitting
    ∧ (handleUpvote fault i w).app.user = w.app.user
    ∧ (handleUpvote fault i w).app.ideas.length = w.app.ideas.length
    ∧ (handleUpvote fault i w).app.ideas.map (fun idea => idea.id)
        = w.app.ideas.map (fun idea => idea.id)
    ∧ (∀ (k : Nat) (idea : Idea), w.app.ideas[k]? = some idea →
        (idea.id = i →
          (handleUpvote fault i w).app.ideas[k]?
            = some { idea with upvotes := some (orZero idea.upvotes + 1) })
        ∧ (idea.id ≠ i → (handleUpvote fault i w).app.ideas[k]? = some idea))
    ∧ ((∀ idea ∈ w.app.ideas, idea.id ≠ i) → handleUpvote fault i w = w) := by
  rw [handleUpvote_demo_ideas fault i w hdb]
  refine ⟨hdb, rfl, rfl, rfl, rfl, ?_, ?_, ?_, ?_⟩
  · simp only [List.length_map]
  · simp only [List.map_map]
    apply List.map_congr_left
    intro idea _
    by_cases h : idea.id = i
    · simp [h]
    · simp [h]
  · intro k idea hk
    simp only [List.getElem?_map, hk, Option.map_some']
    constructor
    · intro h
      rw [if_pos h]
    · intro h
      rw [if_neg h]
  · intro hall
    have hmap : w.app.ideas.map (fun idea =>
        if idea.id = i then { idea with upvotes := some (orZero idea.upvotes + 1) }
        else idea) = w.app.ideas := by
      conv_rhs => rw [← List.map_id w.app.ideas]
      apply List.map_congr_left
      intro idea hmem
      rw [if_neg (hall idea hmem)]
      rfl
    rw [hmap]

/-- Witness of C13: an upvote of `demo-2` (counter 3) in `demoWorld`. -/
theorem handleUpvote_demo_witness :
    demoWorld.db = none
    ∧ (handleUpvote none "demo-2" demoWorld).app.ideas.length = 2
    ∧ (handleUpvote none "demo-2" demoWorld).app.ideas.map (fun idea => idea.upvotes)
        = [some 5, some 4] :=
  ⟨rfl, (handleUpvote_demo none "demo-2" demoWorld rfl).2.2.2.2.2.1, by decide⟩

end IdeaBoard
